import Mathlib

/-!
Shallow embedding of the udffsck core (src/udffsck/udffsck.c) for checking
the natural-language specification against the code.

Bytes are modelled as `Nat` values (convention: < 256); buffers as `List Nat`;
the medium as a sector-indexed map `Nat → List Nat`.  Machine-integer
truncation is made explicit with `% 256`, `% 65536`, `% 2^32` where the C
code relies on it.
-/

namespace Udffsck

/-- Read an `n`-byte little-endian integer at offset `off` of a byte buffer
(missing bytes read as 0, as a defaulted view). -/
def readLE (l : List Nat) (off : Nat) : Nat → Nat
  | 0 => 0
  | n + 1 => l.getD off 0 + 256 * readLE l (off + 1) n

/-- Write the `n`-byte little-endian encoding of `v` at offset `off`. -/
def writeLE (l : List Nat) (off v : Nat) : Nat → List Nat
  | 0 => l
  | n + 1 => writeLE (l.set off (v % 256)) (off + 1) (v / 256) n

/-- Write `n` zero bytes starting at `off` (models memset(..., 0, n)). -/
def writeZeros (l : List Nat) (off : Nat) : Nat → List Nat
  | 0 => l
  | n + 1 => writeZeros (l.set off 0) (off + 1) n

/-- calculate_checksum (udffsck.c:93): sum of the 16 tag bytes skipping
byte 4, accumulated in a uint8_t (hence mod 256 at each step). -/
def calculate_checksum (t : List Nat) : Nat :=
  (List.range 16).foldl (fun acc i => if i = 4 then acc else (acc + t.getD i 0) % 256) 0

/-- checksum (udffsck.c:112): true iff the computed tag checksum equals the
checksum byte stored at offset 4 of the tag. -/
def checksum (t : List Nat) : Bool :=
  calculate_checksum t == t.getD 4 0

/-- Modelled from the spec: one step (one bit) of the CRC used for UDF
descriptors; udf_crc itself lives in libudffs, an external collaborator
(spec section 1 places the CRC polynomial table out of scope), so the
standard CRC16/CCITT polynomial 0x1021 is used here. -/
def crc16_bit (c : Nat) : Nat :=
  if Nat.testBit c 15 then ((c <<< 1) ^^^ 0x1021) % 65536 else (c <<< 1) % 65536

/-- Modelled from the spec: folding one byte into the running CRC. -/
def crc16_byte (c b : Nat) : Nat :=
  crc16_bit^[8] ((c ^^^ ((b % 256) <<< 8)) % 65536)

/-- Modelled from the spec: udf_crc from libudffs (external collaborator),
CRC over a byte sequence with a given initial value. -/
def udf_crc (bytes : List Nat) (init : Nat) : Nat :=
  bytes.foldl crc16_byte init

/-- calculate_crc (udffsck.c:125): CRC over the descriptor bytes past the
16-byte tag, covering `size - 16` bytes; 0 when `size < 16`. -/
def calculate_crc (desc : List Nat) (size : Nat) : Nat :=
  if 16 ≤ size then udf_crc ((desc.drop 16).take (size - 16)) 0 else 0

/-- crc (udffsck.c:144): true iff the stored descCRC field (bytes 8..9 of
the tag, little endian) DIFFERS from the computed CRC (C returns nonzero on
mismatch). -/
def crc (desc : List Nat) (size : Nat) : Bool :=
  readLE desc 8 2 != calculate_crc desc size

/-- check_position (udffsck.c:160): true iff the tag's recorded location
(bytes 12..15) differs from the given position (C returns nonzero on
mismatch). -/
def check_position (t : List Nat) (position : Nat) : Bool :=
  readLE t 12 4 != position

/-! Error-bit and identifier constants.  The header udffsck.h is not under
src/, so the numeric values are modelled from the spec (sections 4.2 and 7
list the error kinds as bit flags; ECMA-167 fixes the tag identifiers; the
exit codes of section 6 fix the ESTATUS values).  The development only
relies on the error flags being distinct single bits. -/

/-- Modelled from the spec: tag-checksum-mismatch error bit. -/
def E_CHECKSUM : Nat := 1

/-- Modelled from the spec: descriptor-CRC-mismatch error bit. -/
def E_CRC : Nat := 2

/-- Modelled from the spec: wrong-descriptor-kind error bit. -/
def E_WRONGDESC : Nat := 4

/-- Modelled from the spec: tag-position-mismatch error bit. -/
def E_POSITION : Nat := 8

/-- Modelled from the spec: extent-length-too-short error bit. -/
def E_EXTLEN : Nat := 16

/-- Modelled from the spec: unique-ID-divergence error bit. -/
def E_UUID : Nat := 32

/-- Modelled from the spec: timestamp-ordering error bit. -/
def E_TIMESTAMP : Nat := 64

/-- Modelled from the spec: free-space/bitmap-size error bit. -/
def E_FREESPACE : Nat := 128

/-- Modelled from the spec (ECMA-167 3/7.2.1): Primary Volume Descriptor tag id. -/
def TAG_IDENT_PVD : Nat := 1

/-- Modelled from the spec (ECMA-167): Anchor Volume Descriptor Pointer tag id. -/
def TAG_IDENT_AVDP : Nat := 2

/-- Modelled from the spec (ECMA-167): Implementation Use Volume Descriptor tag id. -/
def TAG_IDENT_IUVD : Nat := 4

/-- Modelled from the spec (ECMA-167): Partition Descriptor tag id. -/
def TAG_IDENT_PD : Nat := 5

/-- Modelled from the spec (ECMA-167): Logical Volume Descriptor tag id. -/
def TAG_IDENT_LVD : Nat := 6

/-- Modelled from the spec (ECMA-167): Unallocated Space Descriptor tag id. -/
def TAG_IDENT_USD : Nat := 7

/-- Modelled from the spec (ECMA-167): Terminating Descriptor tag id. -/
def TAG_IDENT_TD : Nat := 8

/-- Modelled from the spec (ECMA-167): File Identifier Descriptor tag id. -/
def TAG_IDENT_FID : Nat := 257

/-- Modelled from the spec (ECMA-167): File Entry tag id. -/
def TAG_IDENT_FE : Nat := 261

/-- Modelled from the spec (ECMA-167): Extended File Entry tag id. -/
def TAG_IDENT_EFE : Nat := 266

/-- Modelled from the spec (section 6 exit codes): everything OK. -/
def ESTATUS_OK : Nat := 0

/-- Modelled from the spec (section 6 exit codes): corrected errors. -/
def ESTATUS_CORRECTED_ERRORS : Nat := 1

/-- Modelled from the spec (section 6 exit codes): uncorrected errors remain. -/
def ESTATUS_UNCORRECTED_ERRORS : Nat := 4

/-- Modelled from the spec (header udffsck.h missing from src/):
MAIN_VDS selector value. -/
def MAIN_VDS : Int := 0

/-- Modelled from the spec (header udffsck.h missing from src/):
RESERVE_VDS selector value. -/
def RESERVE_VDS : Int := 1

/-- One slot of the per-sequence table `seq->main[i]` / `seq->reserve[i]`:
the recorded tag identifier and the accumulated error bitfield. -/
structure SeqSlot where
  tagIdent : Nat
  error : Nat
deriving DecidableEq, Repr

/-- The per-slot condition of get_correct (udffsck.c:1133/1135): this slot
holds the requested identifier and its E_CRC/E_CHECKSUM/E_WRONGDESC bits
are all clear. -/
def slotOK (s : SeqSlot) (tagIdent : Nat) : Prop :=
  s.tagIdent = tagIdent ∧ Nat.land s.error (E_CRC ||| E_CHECKSUM ||| E_WRONGDESC) = 0

instance (s : SeqSlot) (tagIdent : Nat) : Decidable (slotOK s tagIdent) := by
  unfold slotOK; infer_instance

/-- get_correct (udffsck.c:1131): walk the paired slot tables in index
order; at each index check the Main slot first, then the Reserve slot, and
return the first one holding the requested identifier whose
E_CRC/E_CHECKSUM/E_WRONGDESC bits are all clear; -1 when no index
qualifies. -/
def get_correct : List SeqSlot → List SeqSlot → Nat → Int
  | m :: ms, r :: rs, tagIdent =>
    if slotOK m tagIdent then MAIN_VDS
    else if slotOK r tagIdent then RESERVE_VDS
    else get_correct ms rs tagIdent
  | _, _, _ => -1

/-- One validation round of get_avdp (udffsck.c:843..921) for a single
candidate sector at a given sector size: checksum, tag identifier, the CRC
stage with the tolerated short-descCRCLength deviation
(sizeof(struct anchorVolDescPtr) = 512, offsetof reserved = 32), the
position check and the extent-length check.  Returns (accepted, status):
`accepted = false` means the candidate is rejected and the caller tries the
next sector size. -/
def get_avdp_candidate (sector : List Nat) (posSectors ssize : Nat) : Bool × Nat :=
  if checksum sector = false then (false, E_CHECKSUM)
  else if readLE sector 0 2 ≠ TAG_IDENT_AVDP then (false, E_WRONGDESC)
  else if crc sector 512 && !(readLE sector 10 2 == 32 - 16 && !(crc sector 32)) then
    (false, E_CRC)
  else if check_position sector posSectors then (false, E_POSITION)
  else
    (true, if readLE sector 16 4 < 16 * ssize ∨ readLE sector 24 4 < 16 * ssize
           then E_EXTLEN else 0)

/-- copy_descriptor (udffsck.c:2881): copy `size` bytes of the descriptor
at sector `src` over sector `dst`, first patching the 16-byte tag: the tag
location becomes the destination position and the tag checksum is
recomputed (the CRC is untouched, it does not cover the tag header). -/
def copy_descriptor (disk : Nat → List Nat) (src dst size : Nat) : Nat → List Nat :=
  let s := disk src
  let tag1 := writeLE (s.take 16) 12 dst 4
  let tag2 := tag1.set 4 (calculate_checksum tag1)
  let newSector := (tag2 ++ (s.drop 16).take (size - 16)) ++ (disk dst).drop size
  fun n => if n = dst then newSector else disk n

/-- Loop body of fix_vds (udffsck.c:3120..3185), iterating over the paired
slot tables with the running slot index `i`.  `fix` models the
autofix/prompt outcome (interactive prompting is an external collaborator).
Faithful to the source, BOTH repair branches call
copy_descriptor(position_reserve + i, position_main + i, sectorsize) —
including the branch whose comment says Copy Main -> Reserve. -/
def fix_vds_go (disk : Nat → List Nat) :
    List SeqSlot → List SeqSlot → Nat → Nat → Nat → Bool → Nat → Nat →
    (Nat → List Nat) × Nat
  | m :: ms, r :: rs, pm, pr, i, fix, ss, status =>
    let step : (Nat → List Nat) × Nat :=
      if m.error ≠ 0 ∧ r.error ≠ 0 then (disk, status)
      else if m.error ≠ 0 then
        if fix then (copy_descriptor disk (pr + i) (pm + i) ss, status ||| ESTATUS_CORRECTED_ERRORS)
        else (disk, status ||| ESTATUS_UNCORRECTED_ERRORS)
      else if r.error ≠ 0 then
        if fix then (copy_descriptor disk (pr + i) (pm + i) ss, status ||| ESTATUS_CORRECTED_ERRORS)
        else (disk, status ||| ESTATUS_UNCORRECTED_ERRORS)
      else (disk, status)
    if m.tagIdent = TAG_IDENT_TD then step
    else fix_vds_go step.1 ms rs pm pr (i + 1) fix ss step.2
  | _, _, _, _, _, _, _, status => (disk, status)

/-- fix_vds (udffsck.c:3120): walk the VDS slot pairs from slot 0, with the
Main and Reserve sequence start positions taken from the anchor. -/
def fix_vds (disk : Nat → List Nat) (main reserve : List SeqSlot)
    (position_main position_reserve : Nat) (fix : Bool) (sectorsize : Nat) :
    (Nat → List Nat) × Nat :=
  fix_vds_go disk main reserve position_main position_reserve 0 fix sectorsize 0

/-! VDS loader (get_vds, udffsck.c:938..1116).  The medium is abstracted as
the stream of descriptors the loader reads at its advancing location; each
element carries the tag identifier, an abstract payload (standing for the
descriptor bytes that get copied out), and the variable tail count for LVD
(mapTableLength in bytes) and USD (numAllocDescs). -/

/-- One descriptor as read by the VDS loader. -/
structure VdsDesc where
  tagIdent : Nat
  payload : Nat
  tailLen : Nat
deriving DecidableEq, Repr

/-- The six per-sequence descriptor pointers media->disc.udf_*[vds]
(NULL modelled as `none`). -/
structure VdsStore where
  pvd : Option Nat
  iuvd : Option Nat
  pd : Option Nat
  lvd : Option Nat
  usd : Option Nat
  td : Option Nat
deriving DecidableEq, Repr

/-- The store with all six descriptor pointers unset. -/
def VdsStore.empty : VdsStore := ⟨none, none, none, none, none, none⟩

/-- The stored descriptor for a given logical kind (none for other tags). -/
def VdsStore.slot (s : VdsStore) (tagIdent : Nat) : Option Nat :=
  if tagIdent = TAG_IDENT_PVD then s.pvd
  else if tagIdent = TAG_IDENT_IUVD then s.iuvd
  else if tagIdent = TAG_IDENT_PD then s.pd
  else if tagIdent = TAG_IDENT_LVD then s.lvd
  else if tagIdent = TAG_IDENT_USD then s.usd
  else if tagIdent = TAG_IDENT_TD then s.td
  else none

/-- Modelled from the spec (ECMA-167 struct sizes; headers not under src/):
the byte length the loader computes for a descriptor, used only to advance
the read location (sizeof(primaryVolDesc) = sizeof(impUseVolDesc) =
sizeof(partitionDesc) = sizeof(terminatingDesc) = 512,
sizeof(logicalVolDesc) = 440 plus the map table,
sizeof(unallocSpaceDesc) = 24 plus the allocation descriptors). -/
def vdsDescLen (d : VdsDesc) : Nat :=
  if d.tagIdent = TAG_IDENT_LVD then 440 + d.tailLen
  else if d.tagIdent = TAG_IDENT_USD then 24 + 8 * d.tailLen
  else 512

/-- Loop of get_vds (udffsck.c:970..1113): `descs k` is the descriptor read
at step `k`; `fuel` is the remaining iteration budget
(VDS_STRUCT_AMOUNT - counter).  Every step first records
(tagIdent, location / sectorsize) in the sequence table; a descriptor of a
logical kind whose store slot is already occupied returns -4 at once with
the store untouched; TD and a zero tag stop with 0; an unknown tag returns
-3; otherwise the payload is stored and the location advances by
ceil(descLen / sectorsize) sectors. -/
def get_vds_loop (descs : Nat → VdsDesc) :
    Nat → VdsStore → List (Nat × Nat) → Nat → Nat → Nat →
    Int × VdsStore × List (Nat × Nat)
  | _, store, seqTab, _, _, 0 => (0, store, seqTab)
  | k, store, seqTab, location, ss, fuel + 1 =>
    let d := descs k
    let seqTab := seqTab ++ [(d.tagIdent, location / ss)]
    let next : VdsStore → Int × VdsStore × List (Nat × Nat) := fun store =>
      get_vds_loop descs (k + 1) store seqTab
        (location + ss * ((vdsDescLen d + ss - 1) / ss)) ss fuel
    if d.tagIdent = TAG_IDENT_PVD then
      if store.pvd.isSome then (-4, store, seqTab) else next { store with pvd := some d.payload }
    else if d.tagIdent = TAG_IDENT_IUVD then
      if store.iuvd.isSome then (-4, store, seqTab) else next { store with iuvd := some d.payload }
    else if d.tagIdent = TAG_IDENT_PD then
      if store.pd.isSome then (-4, store, seqTab) else next { store with pd := some d.payload }
    else if d.tagIdent = TAG_IDENT_LVD then
      if store.lvd.isSome then (-4, store, seqTab) else next { store with lvd := some d.payload }
    else if d.tagIdent = TAG_IDENT_USD then
      if store.usd.isSome then (-4, store, seqTab) else next { store with usd := some d.payload }
    else if d.tagIdent = TAG_IDENT_TD then
      if store.td.isSome then (-4, store, seqTab)
      else (0, { store with td := some d.payload }, seqTab)
    else if d.tagIdent = 0 then (0, store, seqTab)
    else (-3, store, seqTab)

/-- get_vds (udffsck.c:938): run the loader from the sequence start with an
empty store, an empty slot table and the full VDS_STRUCT_AMOUNT budget. -/
def get_vds (descs : Nat → VdsDesc) (location sectorsize vdsStructAmount : Nat) :
    Int × VdsStore × List (Nat × Nat) :=
  get_vds_loop descs 0 VdsStore.empty [] location sectorsize vdsStructAmount

/-! Accounting engine (markUsedBlock, increment_used_space,
decrement_used_space; udffsck.c:1356..1421 and 2213..2240).  The observed
bitmap stats->actPartitionBitmap is modelled as a byte-indexed map
`Nat → Nat` (bit j of byte i covers logical block 8*i+j; bit set = free). -/

/-- The accounting fields of struct filesystemStats the marking operations
touch. -/
structure SpaceStats where
  blocksize : Nat
  partitionNumBlocks : Nat
  freeSpaceBlocks : Nat
  actPartitionBitmap : Nat → Nat

/-- One mark-as-used update (udffsck.c:1370..1375): clear bit lbn%8 of byte
lbn/8 if it is set, otherwise warn and leave the byte alone. -/
def markByteUsed (b bit : Nat) : Nat :=
  if Nat.land b (2 ^ bit) ≠ 0 then Nat.land b (255 - 2 ^ bit) else b

/-- One mark-as-free update (udffsck.c:1376..1381): set bit lbn%8 of byte
lbn/8 if it is clear, otherwise warn and leave the byte alone. -/
def markByteFree (b bit : Nat) : Nat :=
  if Nat.land b (2 ^ bit) ≠ 0 then b else Nat.lor b (2 ^ bit)

/-- Apply one block's bitmap update at logical block `lbn`
(byte = lbn/8, bit = lbn%8, as in the source). -/
def bitmapMark (bm : Nat → Nat) (lbn : Nat) (mark : Bool) : Nat → Nat :=
  fun j =>
    if j = lbn / 8 then
      if mark then markByteUsed (bm (lbn / 8)) (lbn % 8)
      else markByteFree (bm (lbn / 8)) (lbn % 8)
    else bm j

/-- The do-while loop of markUsedBlock: `size` iterations starting at
`lbn`, advancing by one block each time; lbn is a uint32_t, so the
`lbn++` at udffsck.c:1383 wraps at 2^32. -/
def markLoop (bm : Nat → Nat) (lbn : Nat) (mark : Bool) : Nat → Nat → Nat
  | 0 => bm
  | n + 1 => markLoop (bitmapMark bm lbn mark) ((lbn + 1) % 2 ^ 32) mark n

/-- markUsedBlock (udffsck.c:1356): reject the marking (returning 255, the
uint8_t view of -1) when lbn + size — a uint32_t sum, so wrapped at 2^32 —
exceeds the partition block count, leaving the bitmap untouched; a size of
0 is a no-op returning 0; otherwise run the marking loop and return 0. -/
def markUsedBlock (stats : SpaceStats) (lbn size : Nat) (mark : Bool) : SpaceStats × Nat :=
  if (lbn + size) % 2 ^ 32 ≤ stats.partitionNumBlocks then
    if size = 0 then (stats, 0)
    else ({ stats with actPartitionBitmap := markLoop stats.actPartitionBitmap lbn mark size }, 0)
  else (stats, 255)

/-- The ceil-block count (increment + blocksize - 1) / blocksize, truncated
to a uint32_t as in the source. -/
def ceilBlocks (stats : SpaceStats) (bytes : Nat) : Nat :=
  ((bytes + stats.blocksize - 1) / stats.blocksize) % 2 ^ 32

/-- increment_used_space (udffsck.c:2213): decrement the free-block count
by the ceil-block count (uint32_t arithmetic) and then mark the blocks
used; the return value of markUsedBlock is ignored, so the count changes
even when the bitmap marking is rejected. -/
def increment_used_space (stats : SpaceStats) (increment position : Nat) : SpaceStats :=
  let blocks := ceilBlocks stats increment
  let stats := { stats with
    freeSpaceBlocks := (stats.freeSpaceBlocks + 2 ^ 32 - blocks) % 2 ^ 32 }
  (markUsedBlock stats position blocks true).1

/-- decrement_used_space (udffsck.c:2233): increment the free-block count
by the ceil-block count (uint32_t arithmetic) and then mark the blocks
free; the return value of markUsedBlock is ignored. -/
def decrement_used_space (stats : SpaceStats) (decrement position : Nat) : SpaceStats :=
  let blocks := ceilBlocks stats decrement
  let stats := { stats with
    freeSpaceBlocks := (stats.freeSpaceBlocks + blocks) % 2 ^ 32 }
  (markUsedBlock stats position blocks false).1

/-- Bit view of the observed bitmap: the recorded state of logical block
`i` (true = free). -/
def bmTest (bm : Nat → Nat) (i : Nat) : Bool :=
  Nat.testBit (bm (i / 8)) (i % 8)

/-! Dstring validator (check_dstring, udffsck.c:558..653).  The DSTRING_E
codes are defined in udffsck.h, which is not under src/; they are modelled
from the spec (section 4.14) as distinct bits. -/

/-- Modelled from the spec: non-zero padding after the declared length. -/
def DSTRING_E_NONZERO_PADDING : Nat := 1

/-- Modelled from the spec: declared length differs from first NUL. -/
def DSTRING_E_WRONG_LENGTH : Nat := 2

/-- Modelled from the spec: forbidden Unicode endianness marker present. -/
def DSTRING_E_INVALID_CHARACTERS : Nat := 4

/-- Modelled from the spec: unknown compression ID. -/
def DSTRING_E_UNKNOWN_COMP_ID : Nat := 8

/-- Modelled from the spec: empty-requirement violated. -/
def DSTRING_E_NOT_EMPTY : Nat := 16

/-- The index sequence of a C loop for(i = start; i < bound; i += step). -/
def strideIdx (start bound step : Nat) : List Nat :=
  (List.range bound).filter (fun i => start ≤ i ∧ (i - start) % step = 0)

/-- check_dstring (udffsck.c:558): detect dstring violations; returns the
accumulated DSTRING_E bitfield (the eol position is kept in a uint8_t,
hence the % 256). -/
def check_dstring (s : List Nat) (field_size : Nat) : Nat :=
  let compID := s.getD 0 0
  let length := s.getD (field_size - 1) 0
  if compID = 8 ∨ compID = 16 ∨ compID = 0 ∨ compID = 254 ∨ compID = 255 then
    let stepping := if compID = 16 ∨ compID = 255 then 2 else 1
    let empty_flag := compID = 0
    let no_length := compID = 254 ∨ compID = 255
    if empty_flag ∨ (length = 0 ∧ ¬no_length) then
      (strideIdx 0 field_size stepping).foldl
        (fun e i => if s.getD i 0 ≠ 0 then e ||| DSTRING_E_NOT_EMPTY else e) 0
    else
      let lengthCheck :=
        if ¬no_length then
          let p := (strideIdx 1 (field_size - 1) stepping).foldl
            (fun p i =>
              let (eol, e) := p
              if s.getD i 0 ≠ 0 ∨ s.getD (i + stepping - 1) 0 ≠ 0 then
                if eol < 255 then (eol, e ||| DSTRING_E_NONZERO_PADDING) else (eol, e)
              else if eol = 255 then (i % 256, e) else (eol, e))
            (255, 0)
          if length ≠ p.1 ∧ p.1 ≠ 255 then p.2 ||| DSTRING_E_WRONG_LENGTH else p.2
        else 0
      if stepping = 2 then
        (strideIdx 1 (field_size - 1) 2).foldl
          (fun e i =>
            if (s.getD i 0 = 0xFF ∧ s.getD (i + 1) 0 = 0xFE) ∨
               (s.getD i 0 = 0xFE ∧ s.getD (i + 1) 0 = 0xFF) then
              e ||| DSTRING_E_INVALID_CHARACTERS
            else e)
          lengthCheck
      else lengthCheck
  else DSTRING_E_UNKNOWN_COMP_ID

/-! FID inspector (inspect_fid, udffsck.c:1964..2186) and the FID iteration
of walk_directory (udffsck.c:1876..1884).  The directory-content buffer is
`base`; the FID under inspection starts at byte `pos`.  The recursive call
into get_file is abstracted as the oracle `childResult` giving the child
status for an ICB sector; interactive prompting is an external
collaborator, so the fix decisions are driven by the autofix flag. -/

/-- The run-wide inputs inspect_fid reads. -/
structure FidEnv where
  avdpSerial : Nat
  lbnlsn : Nat
  rootLbn : Nat
  minUDFReadRev : Nat
  autofix : Bool

/-- The state inspect_fid may mutate: the directory buffer, the position
pointer, the accumulated run status, the unique-ID counters, the LVID error
bits and the medium (for parent FE/EFE rewrites). -/
structure FidState where
  base : List Nat
  pos : Nat
  status : Nat
  nextUID : Nat
  lvidNextUID : Nat
  lvidError : Nat
  media : Nat → List Nat

/-- flen (udffsck.c:1984): 38 + lengthOfImpUse + lengthFileIdent. -/
def fid_flen (fid : List Nat) : Nat :=
  38 + readLE fid 36 2 + fid.getD 19 0

/-- padding (udffsck.c:1985): the 4-byte-alignment pad on flen. -/
def fid_padding (fid : List Nat) : Nat :=
  4 * ((readLE fid 36 2 + fid.getD 19 0 + 38 + 3) / 4) - (readLE fid 36 2 + fid.getD 19 0 + 38)

/-- Recompute a FID's descCRC (bytes 8..9) over flen + padding bytes and
then its tag checksum (byte 4), in place in the directory buffer — the
shared tail of the serial-number fix (udffsck.c:2023..2024), the unique-ID
fix (udffsck.c:2102..2103) and the unfinished-file removal
(udffsck.c:2134..2135). -/
def fid_write_crc_checksum (base : List Nat) (pos : Nat) : List Nat :=
  let fid := base.drop pos
  let base1 := writeLE base (pos + 8) (calculate_crc fid (fid_flen fid + fid_padding fid)) 2
  base1.set (pos + 4) (calculate_checksum (base1.drop pos))

/-- Modelled from the spec (ECMA-167 layouts; ecma_167.h is not under
src/): recompute the parent FE/EFE descCRC and checksum after a FID fix
(udffsck.c:2032..2044): sizeof(fileEntry) = 176 with lengthExtendedAttr at
168 and lengthAllocDescs at 172; sizeof(extendedFileEntry) = 216 with the
lengths at 208 and 212. -/
def recompute_fe_crc (s : List Nat) : List Nat :=
  if readLE s 0 2 = TAG_IDENT_EFE then
    let len := 216 + readLE s 208 4 + readLE s 212 4
    let s1 := writeLE s 8 (calculate_crc s len) 2
    s1.set 4 (calculate_checksum s1)
  else if readLE s 0 2 = TAG_IDENT_FE then
    let len := 176 + readLE s 168 4 + readLE s 172 4
    let s1 := writeLE s 8 (calculate_crc s len) 2
    s1.set 4 (calculate_checksum s1)
  else s

/-- The parent rewrite used by the unfinished-file removal
(udffsck.c:2146..2154).  Faithful to the source, the second branch repeats
the EFE test (a slip: the FE case at udffsck.c:2149 is dead code), so a
plain-FE parent is left untouched there. -/
def recompute_fe_crc_deleted (s : List Nat) : List Nat :=
  if readLE s 0 2 = TAG_IDENT_EFE then
    let len := 216 + readLE s 208 4 + readLE s 212 4
    let s1 := writeLE s 8 (calculate_crc s len) 2
    s1.set 4 (calculate_checksum s1)
  else if readLE s 0 2 = TAG_IDENT_EFE then
    let len := 176 + readLE s 168 4 + readLE s 172 4
    let s1 := writeLE s 8 (calculate_crc s len) 2
    s1.set 4 (calculate_checksum s1)
  else s

/-- Rewrite the parent FE/EFE sector in place on the medium. -/
def fix_parent_fe (media : Nat → List Nat) (lsn : Nat) : Nat → List Nat :=
  fun n => if n = lsn then recompute_fe_crc (media lsn) else media n

/-- Rewrite the parent sector in place for the unfinished-file removal
path. -/
def fix_parent_fe_deleted (media : Nat → List Nat) (lsn : Nat) : Nat → List Nat :=
  fun n => if n = lsn then recompute_fe_crc_deleted (media lsn) else media n

/-- The body of inspect_fid for a FID that passed the checksum, identifier
and CRC gates (udffsck.c:2012..2168): tag-serial check and optional fix,
the deleted/not-deleted split, parent/self/root skipping, unique-ID
accounting and optional fix, the descent into the child ICB (the
`childResult` oracle), and the unfinished-file removal when the child
reports 32.  The position pointer is not touched here. -/
def inspect_fid_body (env : FidEnv) (childResult : Nat → Nat) (st : FidState) (lsn : Nat) :
    FidState :=
  let pos := st.pos
  let fid := st.base.drop pos
  let st1 :=
    if env.avdpSerial ≠ readLE fid 6 2 then
      if env.autofix then
        { st with
          base := fid_write_crc_checksum (writeLE st.base (pos + 6) env.avdpSerial 2) pos,
          media := fix_parent_fe st.media lsn,
          status := st.status ||| ESTATUS_CORRECTED_ERRORS }
      else { st with status := st.status ||| ESTATUS_UNCORRECTED_ERRORS }
    else st
  let fid1 := st1.base.drop pos
  if Nat.land (fid1.getD 18 0) 4 = 0 then
    if pos = 0 then st1
    else if readLE fid1 24 4 + env.lbnlsn = lsn then st1
    else if readLE fid1 24 4 + env.lbnlsn = env.rootLbn + env.lbnlsn then st1
    else
      let uuid := readLE fid1 32 4
      let st2 := if st1.nextUID ≤ uuid then { st1 with nextUID := uuid + 1 } else st1
      let st3 :=
        if uuid = 0 ∧ 0x0200 < env.minUDFReadRev then
          if env.autofix then
            let u := st2.lvidNextUID
            { st2 with
              base := fid_write_crc_checksum (st2.base.set (pos + 32) (u % 256)) pos,
              nextUID := u, lvidNextUID := u + 1,
              lvidError := st2.lvidError ||| E_UUID,
              media := fix_parent_fe st2.media lsn,
              status := st2.status ||| ESTATUS_CORRECTED_ERRORS }
          else { st2 with status := st2.status ||| ESTATUS_UNCORRECTED_ERRORS }
        else st2
      let tmp := childResult (readLE fid1 24 4 + env.lbnlsn)
      if tmp = 32 then
        let baseA := st3.base.set (pos + 18) (Nat.lor ((st3.base.drop pos).getD 18 0) 4)
        { st3 with
          base := fid_write_crc_checksum (writeZeros baseA (pos + 20) 16) pos,
          media := fix_parent_fe_deleted st3.media (readLE (st3.base.drop pos) 12 4 + env.lbnlsn),
          status := st3.status ||| ESTATUS_CORRECTED_ERRORS }
      else { st3 with status := st3.status ||| tmp }
  else
    { st1 with status := st1.status |||
        (if check_dstring (fid1.drop (38 + readLE fid1 36 2)) (fid1.getD 19 0) ≠ 0
         then ESTATUS_UNCORRECTED_ERRORS else ESTATUS_OK) }

/-- inspect_fid (udffsck.c:1964): returns the failure code and the updated
state.  A failed tag checksum returns 252 (uint8_t view of -4) leaving the
state alone; a tag identifier other than FID returns 1 leaving the state
alone; a failed CRC returns 251 (uint8_t view of -5) leaving the state
alone; otherwise the body runs, the position pointer advances by
flen + padding and the result is 0. -/
def inspect_fid (env : FidEnv) (childResult : Nat → Nat) (st : FidState) (lsn : Nat) :
    Nat × FidState :=
  let fid := st.base.drop st.pos
  if checksum fid = false then (252, st)
  else if readLE fid 0 2 = TAG_IDENT_FID then
    if crc fid (fid_flen fid + fid_padding fid) then (251, st)
    else
      let st1 := inspect_fid_body env childResult st lsn
      (0, { st1 with pos := st.pos + fid_flen fid + fid_padding fid })
  else (1, st)

/-- The FID iteration of walk_directory (udffsck.c:1878..1884): inspect
FIDs while the position is below the directory content length, stopping at
the first nonzero failure code (`fuel` bounds the iteration count). -/
def fid_loop (env : FidEnv) (childResult : Nat → Nat) (lsn len : Nat) :
    Nat → FidState → FidState
  | 0, st => st
  | fuel + 1, st =>
    if st.pos < len then
      let r := inspect_fid env childResult st lsn
      if r.1 ≠ 0 then r.2 else fid_loop env childResult lsn len fuel r.2
    else st

/-- A concrete AVDP candidate sector used as a witness input: valid tag
checksum, AVDP tag identifier, tag location 256, descCRCLength 16 (the
shortened coverage stopping at the reserved region) with the stored CRC
matching the short coverage but not the full 512-byte descriptor. -/
def avdpCandidateWitnessSector : List Nat :=
  [2, 0, 2, 0, 230, 0, 0, 0, 222, 243, 16, 0, 0, 1, 0, 0] ++
  [0, 32, 0, 0, 32, 0, 0, 0, 0, 32, 0, 0, 64, 0, 0, 0] ++
  List.replicate 480 0

/-- A concrete two-sector medium for evaluating fix_vds: the clean Main
PVD sector at position 10 and the damaged Reserve PVD sector at
position 20 (32-byte sectors). -/
def c1Disk : Nat → List Nat := fun n =>
  if n = 10 then List.replicate 32 170
  else if n = 20 then List.replicate 32 187
  else []

/-- A concrete directory-content buffer holding one valid FID at byte 40:
FID tag identifier, valid tag checksum and CRC, tag serial number 1, not
deleted, child ICB at logical block 5, unique ID 9, empty file identifier
(flen 38, padding 2). -/
def c2Base : List Nat :=
  [0, 0, 0, 0, 0, 0, 0, 0, 0, 0, 0, 0, 0, 0, 0, 0, 0, 0, 0, 0, 0, 0, 0, 0, 0, 0, 0, 0, 0, 0, 0, 0, 0, 0, 0, 0, 0, 0, 0, 0,
   1, 1, 2, 0, 181, 0, 1, 0, 194, 214, 24, 0, 0, 0, 0, 0,
   1, 0, 0, 0, 0, 8, 0, 0, 5, 0, 0, 0, 0, 0, 0, 0, 9, 0, 0, 0, 0, 0, 0, 0]

/-- The run inputs for the C2 evaluation: volume serial 1, lbnlsn 0, root
directory ICB at block 50, minimum UDF read revision 0x0150, autofix on. -/
def c2Env : FidEnv := ⟨1, 0, 50, 336, true⟩

/-- The inspector state for the C2 evaluation: position 40 in c2Base. -/
def c2State : FidState := ⟨c2Base, 40, 0, 1, 77, 0, fun _ => []⟩

/-! Helper lemmas about bytes and bitmap marking, shared by the claims
below. -/

theorem land_two_pow_ne_zero (b bit : Nat) :
    (Nat.land b (2 ^ bit) ≠ 0) = (b.testBit bit = true) := by
  show (b &&& 2 ^ bit ≠ 0) = _
  rw [Nat.and_two_pow]
  cases h : b.testBit bit <;> simp [h, (Nat.two_pow_pos bit).ne']

theorem testBit_sub_mask (bit j : Nat) (hbit : bit < 8) :
    (255 - 2 ^ bit).testBit j = (decide (j < 8) && !(decide (j = bit))) := by
  have h : (255 - 2 ^ bit) = (2 ^ 8 - 1) ^^^ (2 ^ bit) := by
    interval_cases bit <;> decide
  rw [h, Nat.testBit_xor, Nat.testBit_two_pow_sub_one, Nat.testBit_two_pow]
  rcases Nat.lt_or_ge j 8 with hj | hj
  · have heq : bit = j ↔ j = bit := ⟨Eq.symm, Eq.symm⟩
    simp [hj, heq]
  · have h1 : ¬ j < 8 := Nat.not_lt.mpr hj
    have h2 : ¬ bit = j := by omega
    simp [h1, h2]

theorem testBit_markByteUsed (b bit j : Nat) (hbit : bit < 8) (hj : j < 8) :
    (markByteUsed b bit).testBit j = if j = bit then false else b.testBit j := by
  unfold markByteUsed
  by_cases h : Nat.land b (2 ^ bit) ≠ 0
  · rw [if_pos h]
    show (b &&& (255 - 2 ^ bit)).testBit j = _
    rw [Nat.testBit_and, testBit_sub_mask bit j hbit]
    by_cases hjb : j = bit <;> simp [hjb, hj]
  · rw [if_neg h]
    have hb : b.testBit bit = false := by
      rw [land_two_pow_ne_zero] at h
      simpa using h
    by_cases hjb : j = bit <;> simp [hjb, hb]

theorem testBit_markByteFree (b bit j : Nat) :
    (markByteFree b bit).testBit j = if j = bit then true else b.testBit j := by
  unfold markByteFree
  by_cases h : Nat.land b (2 ^ bit) ≠ 0
  · rw [if_pos h]
    have hb : b.testBit bit = true := by rw [land_two_pow_ne_zero] at h; exact h
    by_cases hjb : j = bit <;> simp [hjb, hb]
  · rw [if_neg h]
    show (b ||| 2 ^ bit).testBit j = _
    rw [Nat.testBit_or, Nat.testBit_two_pow]
    by_cases hjb : j = bit
    · simp [hjb]
    · have hbj : ¬ bit = j := fun hc => hjb hc.symm
      simp [hjb, hbj]

theorem markByteUsed_lt (b bit : Nat) (hb : b < 256) : markByteUsed b bit < 256 := by
  unfold markByteUsed
  split
  · exact Nat.lt_of_le_of_lt Nat.and_le_left hb
  · exact hb

theorem markByteFree_lt (b bit : Nat) (hb : b < 256) (hbit : bit < 8) :
    markByteFree b bit < 256 := by
  unfold markByteFree
  split
  · exact hb
  · show b ||| 2 ^ bit < 256
    have h2 : (2 : Nat) ^ bit < 2 ^ 8 := Nat.pow_lt_pow_right (by norm_num) hbit
    exact Nat.or_lt_two_pow hb h2

theorem bmTest_bitmapMark (bm : Nat → Nat) (lbn i : Nat) (mark : Bool) :
    bmTest (bitmapMark bm lbn mark) i = if i = lbn then !mark else bmTest bm i := by
  have hm8 : lbn % 8 < 8 := Nat.mod_lt _ (by norm_num)
  have hi8 : i % 8 < 8 := Nat.mod_lt _ (by norm_num)
  simp only [bmTest, bitmapMark]
  by_cases hdiv : i / 8 = lbn / 8
  · simp only [if_pos hdiv, hdiv]
    cases mark with
    | false =>
      simp only [Bool.false_eq_true, if_false, if_true, Bool.not_false]
      rw [testBit_markByteFree]
      by_cases he : i = lbn
      · subst he; simp
      · have hne : ¬ i % 8 = lbn % 8 := by omega
        simp [he, hne]
    | true =>
      simp only [if_true, Bool.not_true]
      rw [testBit_markByteUsed _ _ _ hm8 hi8]
      by_cases he : i = lbn
      · subst he; simp
      · have hne : ¬ i % 8 = lbn % 8 := by omega
        simp [he, hne]
  · have hne : ¬ i = lbn := by omega
    simp only [if_neg hdiv, if_neg hne]

theorem bmTest_markLoop (mark : Bool) :
    ∀ (n : Nat) (bm : Nat → Nat) (lbn i : Nat), lbn < 2 ^ 32 → n ≤ 2 ^ 32 →
    bmTest (markLoop bm lbn mark n) i =
      if i < 2 ^ 32 ∧ (lbn ≤ i ∧ i < lbn + n ∨ i + 2 ^ 32 < lbn + n) then !mark
      else bmTest bm i := by
  intro n
  induction n with
  | zero =>
    intro bm lbn i hlbn hn
    show bmTest bm i = _
    rw [if_neg (by omega)]
  | succ k ih =>
    intro bm lbn i hlbn hn
    show bmTest (markLoop (bitmapMark bm lbn mark) ((lbn + 1) % 2 ^ 32) mark k) i = _
    rw [ih _ _ i (Nat.mod_lt _ (by norm_num)) (by omega), bmTest_bitmapMark]
    by_cases h1 : i < 2 ^ 32 ∧
        ((lbn + 1) % 2 ^ 32 ≤ i ∧ i < (lbn + 1) % 2 ^ 32 + k ∨
          i + 2 ^ 32 < (lbn + 1) % 2 ^ 32 + k)
    · rw [if_pos h1, if_pos (by omega)]
    · rw [if_neg h1]
      by_cases h2 : i = lbn
      · rw [if_pos h2, if_pos (by omega)]
      · rw [if_neg h2, if_neg (by omega)]

theorem markLoop_lt (mark : Bool) :
    ∀ (n : Nat) (bm : Nat → Nat) (lbn : Nat), (∀ j, bm j < 256) →
    ∀ j, markLoop bm lbn mark n j < 256 := by
  intro n
  induction n with
  | zero => intro bm lbn hb j; exact hb j
  | succ k ih =>
    intro bm lbn hb j
    refine ih (bitmapMark bm lbn mark) ((lbn + 1) % 2 ^ 32) ?_ j
    intro j'
    have hm8 : lbn % 8 < 8 := Nat.mod_lt _ (by norm_num)
    unfold bitmapMark
    split
    · cases mark with
      | false => exact markByteFree_lt _ _ (hb _) hm8
      | true => exact markByteUsed_lt _ _ (hb _)
    · exact hb j'

/-! The claims. -/

/-- Claim C8: for every 16-byte descriptor tag, the checksum predicate
returns true if and only if the 8-bit sum (modulo 256) of the tag's 15
bytes other than byte 4 equals the checksum byte stored at offset 4. -/
theorem checksum_iff_sum_mod_256
    (b0 b1 b2 b3 b4 b5 b6 b7 b8 b9 b10 b11 b12 b13 b14 b15 : Nat) :
    checksum [b0, b1, b2, b3, b4, b5, b6, b7, b8, b9, b10, b11, b12, b13, b14, b15] = true ↔
    (b0 + b1 + b2 + b3 + b5 + b6 + b7 + b8 + b9 + b10 + b11 + b12
      + b13 + b14 + b15) % 256 = b4 := by
  simp only [checksum, calculate_checksum, beq_iff_eq]
  norm_num [List.range_succ]

/-- Claim C4, counterexample: a descriptor with declared CRC coverage
length 10 (< 16) and a nonzero stored CRC field is NOT reported as a CRC
match — crc returns the mismatch value — so a short declared length is not
trivially valid regardless of the stored CRC field. -/
theorem crc_short_length_counterexample :
    10 < 16 ∧ crc [0, 0, 0, 0, 0, 0, 0, 0, 1, 0, 0, 0, 0, 0, 0, 0] 10 = true := by
  constructor
  · decide
  · decide

/-- Claim C4, amended: for every descriptor whose declared CRC coverage
length is less than 16 bytes, the computed CRC is 0, so the CRC check
reports a match if and only if the descriptor's stored CRC field (bytes
8..9, little endian) is zero. -/
theorem crc_short_length_match_iff_zero (desc : List Nat) (size : Nat) (h : size < 16) :
    crc desc size = false ↔ readLE desc 8 2 = 0 := by
  have hns : ¬ 16 ≤ size := Nat.not_le.mpr h
  simp [crc, calculate_crc, hns]

/-- Claim C4, witness for the amended theorem at a concrete input. -/
theorem crc_short_length_match_iff_zero_witness :
    10 < 16 ∧
    (crc (List.replicate 16 0) 10 = false ↔ readLE (List.replicate 16 0) 8 2 = 0) :=
  ⟨by decide, crc_short_length_match_iff_zero (List.replicate 16 0) 10 (by decide)⟩

/-- Claim C3, counterexample: the reconciler scans slot indices in order,
checking Main before Reserve at each index, so it can return Reserve even
though a (later) Main slot holds the requested identifier with the
E_CRC/E_CHECKSUM/E_WRONGDESC bits clear — contradicting the claim's
Main-anywhere-first reading. -/
theorem get_correct_main_priority_counterexample :
    get_correct [⟨TAG_IDENT_PVD, E_CRC⟩, ⟨TAG_IDENT_PVD, 0⟩]
        [⟨TAG_IDENT_PVD, 0⟩, ⟨TAG_IDENT_TD, 0⟩] TAG_IDENT_PVD = RESERVE_VDS ∧
    slotOK (([⟨TAG_IDENT_PVD, E_CRC⟩, ⟨TAG_IDENT_PVD, 0⟩] : List SeqSlot).getD 1 ⟨0, 0⟩)
        TAG_IDENT_PVD ∧
    RESERVE_VDS ≠ MAIN_VDS := by
  refine ⟨by decide, by decide, by decide⟩

/-- Claim C3, amended: get_correct scans the paired slot tables in index
order, checking the Main copy before the Reserve copy at each index: it
returns -1 exactly when no slot of either table qualifies (holds the
identifier with E_CRC/E_CHECKSUM/E_WRONGDESC clear); it returns Main when
the first qualifying index has a qualifying Main copy; it returns Reserve
when at the first qualifying index only the Reserve copy qualifies. -/
theorem get_correct_scan_characterization (main reserve : List SeqSlot) (t : Nat)
    (h : main.length = reserve.length) :
    (get_correct main reserve t = -1 ↔
      ∀ i < main.length,
        ¬ slotOK (main.getD i ⟨0, 0⟩) t ∧ ¬ slotOK (reserve.getD i ⟨0, 0⟩) t)
    ∧ (∀ i < main.length, slotOK (main.getD i ⟨0, 0⟩) t →
        (∀ j < i, ¬ slotOK (main.getD j ⟨0, 0⟩) t ∧ ¬ slotOK (reserve.getD j ⟨0, 0⟩) t) →
        get_correct main reserve t = MAIN_VDS)
    ∧ (∀ i < main.length, ¬ slotOK (main.getD i ⟨0, 0⟩) t →
        slotOK (reserve.getD i ⟨0, 0⟩) t →
        (∀ j < i, ¬ slotOK (main.getD j ⟨0, 0⟩) t ∧ ¬ slotOK (reserve.getD j ⟨0, 0⟩) t) →
        get_correct main reserve t = RESERVE_VDS) := by
  induction main generalizing reserve with
  | nil =>
    have : reserve = [] := List.length_eq_zero.mp (by simpa using h.symm)
    subst this
    refine ⟨by simp [get_correct], by simp, by simp⟩
  | cons m ms ih =>
    cases reserve with
    | nil => simp at h
    | cons r rs =>
      have h' : ms.length = rs.length := by simpa using h
      obtain ⟨ih1, ih2, ih3⟩ := ih rs h'
      by_cases hm : slotOK m t
      · refine ⟨?_, ?_, ?_⟩
        · simp only [get_correct, if_pos hm]
          constructor
          · intro hc; exact absurd hc (by decide)
          · intro hall
            exact absurd hm (hall 0 (by simp)).1
        · intro i hi hqi hprev
          simp [get_correct, if_pos hm]
        · intro i hi hni hri hprev
          cases i with
          | zero => exact absurd hm (by simpa using hni)
          | succ n => exact absurd hm ((hprev 0 (Nat.succ_pos n)).1)
      · by_cases hr : slotOK r t
        · refine ⟨?_, ?_, ?_⟩
          · simp only [get_correct, if_neg hm, if_pos hr]
            constructor
            · intro hc; exact absurd hc (by decide)
            · intro hall
              exact absurd hr (hall 0 (by simp)).2
          · intro i hi hqi hprev
            cases i with
            | zero => exact absurd hqi (by simpa using hm)
            | succ n => exact absurd hr ((hprev 0 (Nat.succ_pos n)).2)
          · intro i hi hni hri hprev
            cases i with
            | zero => simp [get_correct, if_neg hm, if_pos hr]
            | succ n => exact absurd hr ((hprev 0 (Nat.succ_pos n)).2)
        · have hg : get_correct (m :: ms) (r :: rs) t = get_correct ms rs t := by
            simp [get_correct, if_neg hm, if_neg hr]
          refine ⟨?_, ?_, ?_⟩
          · rw [hg, ih1]
            constructor
            · intro hall i hi
              cases i with
              | zero => exact ⟨by simpa using hm, by simpa using hr⟩
              | succ n =>
                have := hall n (by simpa using Nat.lt_of_succ_lt_succ hi)
                simpa using this
            · intro hall i hi
              have := hall (i + 1) (by simpa using Nat.succ_lt_succ hi)
              simpa using this
          · intro i hi hqi hprev
            cases i with
            | zero => exact absurd hqi (by simpa using hm)
            | succ n =>
              rw [hg]
              refine ih2 n (by simpa using Nat.lt_of_succ_lt_succ hi) (by simpa using hqi) ?_
              intro j hj
              have := hprev (j + 1) (Nat.succ_lt_succ hj)
              simpa using this
          · intro i hi hni hri hprev
            cases i with
            | zero => exact absurd hri (by simpa using hr)
            | succ n =>
              rw [hg]
              refine ih3 n (by simpa using Nat.lt_of_succ_lt_succ hi) (by simpa using hni)
                (by simpa using hri) ?_
              intro j hj
              have := hprev (j + 1) (Nat.succ_lt_succ hj)
              simpa using this

/-- Claim C3, witness for the amended theorem at a concrete input. -/
theorem get_correct_scan_characterization_witness :
    ([⟨TAG_IDENT_PVD, 0⟩] : List SeqSlot).length = ([⟨TAG_IDENT_PVD, 0⟩] : List SeqSlot).length ∧
    get_correct [⟨TAG_IDENT_PVD, 0⟩] [⟨TAG_IDENT_PVD, 0⟩] TAG_IDENT_PVD = MAIN_VDS := by
  refine ⟨rfl, ?_⟩
  exact (get_correct_scan_characterization [⟨TAG_IDENT_PVD, 0⟩] [⟨TAG_IDENT_PVD, 0⟩]
    TAG_IDENT_PVD rfl).2.1 0 (by decide) (by decide) (by omega)

theorem testBit_ge8_eq_false (x t : Nat) (hx : x < 256) (ht : 8 ≤ t) :
    x.testBit t = false := by
  have h256 : (256 : Nat) ≤ 2 ^ t := by
    calc (256 : Nat) = 2 ^ 8 := by norm_num
    _ ≤ 2 ^ t := Nat.pow_le_pow_right (by norm_num) ht
  exact Nat.testBit_lt_two_pow (Nat.lt_of_lt_of_le hx h256)

theorem getD_set (l : List Nat) (i j v : Nat) :
    (l.set i v).getD j 0 = if i = j ∧ j < l.length then v else l.getD j 0 := by
  induction l generalizing i j with
  | nil => simp
  | cons a t ih =>
    cases i with
    | zero =>
      cases j with
      | zero => simp
      | succ m => simp
    | succ n =>
      cases j with
      | zero => simp
      | succ m =>
        show (t.set n v).getD m 0 = _
        rw [ih n m, List.length_cons]
        by_cases h : n = m ∧ m < t.length
        · rw [if_pos h, if_pos (by omega)]
        · rw [if_neg h, if_neg (by omega)]
          simp

theorem getD_drop (l : List Nat) : ∀ p i, (l.drop p).getD i 0 = l.getD (p + i) 0 := by
  induction l with
  | nil => intro p i; simp
  | cons a t ih =>
    intro p i
    cases p with
    | zero => simp
    | succ n =>
      show (t.drop n).getD i 0 = _
      rw [ih n i]
      simp [Nat.succ_add]

theorem length_writeZeros : ∀ (n : Nat) (l : List Nat) (off : Nat),
    (writeZeros l off n).length = l.length := by
  intro n
  induction n with
  | zero => intro l off; rfl
  | succ k ih =>
    intro l off
    show (writeZeros (l.set off 0) (off + 1) k).length = _
    rw [ih, List.length_set]

theorem getD_writeZeros : ∀ (n : Nat) (l : List Nat) (off j : Nat),
    (writeZeros l off n).getD j 0 =
      if off ≤ j ∧ j < off + n ∧ j < l.length then 0 else l.getD j 0 := by
  intro n
  induction n with
  | zero =>
    intro l off j
    show l.getD j 0 = _
    rw [if_neg (by omega)]
  | succ k ih =>
    intro l off j
    show (writeZeros (l.set off 0) (off + 1) k).getD j 0 = _
    rw [ih, List.length_set, getD_set]
    by_cases h1 : off + 1 ≤ j ∧ j < off + 1 + k ∧ j < l.length
    · rw [if_pos h1, if_pos (by omega)]
    · rw [if_neg h1]
      by_cases h2 : off = j ∧ j < l.length
      · rw [if_pos h2, if_pos (by omega)]
      · rw [if_neg h2, if_neg (by omega)]

theorem writeLE_two (l : List Nat) (off v : Nat) :
    writeLE l off v 2 = (l.set off (v % 256)).set (off + 1) (v / 256 % 256) := rfl

theorem readLE_two (l : List Nat) (off : Nat) :
    readLE l off 2 = l.getD off 0 + 256 * l.getD (off + 1) 0 := by
  simp [readLE]

theorem crc16_bit_lt (c : Nat) : crc16_bit c < 65536 := by
  unfold crc16_bit
  split <;> exact Nat.mod_lt _ (by norm_num)

theorem crc16_byte_lt (c b : Nat) : crc16_byte c b < 65536 := by
  unfold crc16_byte
  rw [show (8 : Nat) = 7 + 1 from rfl, Function.iterate_succ_apply']
  exact crc16_bit_lt _

theorem udf_crc_lt : ∀ (l : List Nat) (c : Nat), c < 65536 → udf_crc l c < 65536 := by
  intro l
  induction l with
  | nil => intro c hc; exact hc
  | cons b rest ih =>
    intro c _
    exact ih (crc16_byte c b) (crc16_byte_lt c b)

theorem calculate_crc_lt (desc : List Nat) (size : Nat) : calculate_crc desc size < 65536 := by
  unfold calculate_crc
  split
  · exact udf_crc_lt _ 0 (by norm_num)
  · norm_num

theorem calculate_checksum_congr (a b : List Nat)
    (h : ∀ i, i < 16 → i ≠ 4 → a.getD i 0 = b.getD i 0) :
    calculate_checksum a = calculate_checksum b := by
  simp only [calculate_checksum]
  simp only [List.getD_eq_getElem?_getD] at h
  norm_num [List.range_succ]
  rw [h 0 (by norm_num) (by norm_num), h 1 (by norm_num) (by norm_num),
    h 2 (by norm_num) (by norm_num), h 3 (by norm_num) (by norm_num),
    h 5 (by norm_num) (by norm_num), h 6 (by norm_num) (by norm_num),
    h 7 (by norm_num) (by norm_num), h 8 (by norm_num) (by norm_num),
    h 9 (by norm_num) (by norm_num), h 10 (by norm_num) (by norm_num),
    h 11 (by norm_num) (by norm_num), h 12 (by norm_num) (by norm_num),
    h 13 (by norm_num) (by norm_num), h 14 (by norm_num) (by norm_num),
    h 15 (by norm_num) (by norm_num)]

theorem calculate_crc_congr (a b : List Nat) (size : Nat)
    (hlen : a.length = b.length)
    (h : ∀ i, 16 ≤ i → i < size → a.getD i 0 = b.getD i 0) :
    calculate_crc a size = calculate_crc b size := by
  unfold calculate_crc
  split
  · congr 1
    apply List.ext_getElem?
    intro j
    rw [List.getElem?_take, List.getElem?_take]
    split
    · rw [List.getElem?_drop, List.getElem?_drop]
      rcases Nat.lt_or_ge (16 + j) a.length with hlt | hge
      · have hb : 16 + j < b.length := hlen ▸ hlt
        have hga := List.getElem?_eq_getElem hlt
        have hgb := List.getElem?_eq_getElem hb
        rw [hga, hgb]
        have := h (16 + j) (by omega) (by omega)
        rw [List.getD_eq_getElem?_getD, List.getD_eq_getElem?_getD, hga, hgb] at this
        simpa using this
      · rw [List.getElem?_eq_none (by omega), List.getElem?_eq_none (by omega)]
    · rfl
  · rfl

theorem increment_used_space_eq (bs pnb fsb : Nat) (bm : Nat → Nat) (len pos : Nat) :
    increment_used_space ⟨bs, pnb, fsb, bm⟩ len pos =
      ⟨bs, pnb, (fsb + 2 ^ 32 - ((len + bs - 1) / bs) % 2 ^ 32) % 2 ^ 32,
       if (pos + ((len + bs - 1) / bs) % 2 ^ 32) % 2 ^ 32 ≤ pnb
           ∧ ((len + bs - 1) / bs) % 2 ^ 32 ≠ 0 then
         markLoop bm pos true (((len + bs - 1) / bs) % 2 ^ 32)
       else bm⟩ := by
  simp only [increment_used_space, markUsedBlock, ceilBlocks]
  by_cases h1 : (pos + ((len + bs - 1) / bs) % 2 ^ 32) % 2 ^ 32 ≤ pnb
  · rw [if_pos h1]
    by_cases h2 : ((len + bs - 1) / bs) % 2 ^ 32 = 0
    · rw [if_pos h2, if_neg (by tauto)]
    · rw [if_neg h2, if_pos ⟨h1, h2⟩]
  · rw [if_neg h1, if_neg (by tauto)]

theorem decrement_used_space_eq (bs pnb fsb : Nat) (bm : Nat → Nat) (len pos : Nat) :
    decrement_used_space ⟨bs, pnb, fsb, bm⟩ len pos =
      ⟨bs, pnb, (fsb + ((len + bs - 1) / bs) % 2 ^ 32) % 2 ^ 32,
       if (pos + ((len + bs - 1) / bs) % 2 ^ 32) % 2 ^ 32 ≤ pnb
           ∧ ((len + bs - 1) / bs) % 2 ^ 32 ≠ 0 then
         markLoop bm pos false (((len + bs - 1) / bs) % 2 ^ 32)
       else bm⟩ := by
  simp only [decrement_used_space, markUsedBlock, ceilBlocks]
  by_cases h1 : (pos + ((len + bs - 1) / bs) % 2 ^ 32) % 2 ^ 32 ≤ pnb
  · rw [if_pos h1]
    by_cases h2 : ((len + bs - 1) / bs) % 2 ^ 32 = 0
    · rw [if_pos h2, if_neg (by tauto)]
    · rw [if_neg h2, if_pos ⟨h1, h2⟩]
  · rw [if_neg h1, if_neg (by tauto)]

/-- Claim C9: marking a fully-free in-range area used and then free again
restores both the free-block count and the observed bitmap —
decrement_used_space is the inverse of increment_used_space there.  The
partition block count is a uint32_t in the source, so its representability
(< 2^32) is a hypothesis; with it, an in-range extent fits below 2^32 and
the loop counter of markUsedBlock cannot wrap. -/
theorem decrement_inverse_of_increment (s : SpaceStats) (len pos : Nat)
    (hfsb : s.freeSpaceBlocks < 2 ^ 32)
    (hpnb : s.partitionNumBlocks < 2 ^ 32)
    (hbytes : ∀ j, s.actPartitionBitmap j < 256)
    (hrange : pos + ceilBlocks s len ≤ s.partitionNumBlocks)
    (hfree : ∀ b, pos ≤ b → b < pos + ceilBlocks s len →
      bmTest s.actPartitionBitmap b = true) :
    decrement_used_space (increment_used_space s len pos) len pos = s := by
  obtain ⟨bs, pnb, fsb, bm⟩ := s
  simp only [ceilBlocks] at hrange hfree ⊢
  simp only at hfsb hpnb hbytes
  have hKlt : ((len + bs - 1) / bs) % 2 ^ 32 < 2 ^ 32 := Nat.mod_lt _ (by norm_num)
  rw [increment_used_space_eq, decrement_used_space_eq]
  simp only [SpaceStats.mk.injEq]
  refine ⟨by simp, by simp, by omega, ?_⟩
  by_cases hK0 : ((len + bs - 1) / bs) % 2 ^ 32 = 0
  · rw [if_neg (by tauto), if_neg (by tauto)]
  · rw [if_pos ⟨by omega, hK0⟩, if_pos ⟨by omega, hK0⟩]
    funext j
    apply Nat.eq_of_testBit_eq
    intro t
    rcases Nat.lt_or_ge t 8 with ht | ht
    · have hdiv : (8 * j + t) / 8 = j := by omega
      have hmod : (8 * j + t) % 8 = t := by omega
      have h1 := bmTest_markLoop false (((len + bs - 1) / bs) % 2 ^ 32)
        (markLoop bm pos true (((len + bs - 1) / bs) % 2 ^ 32)) pos (8 * j + t)
        (by omega) (by omega)
      have h2 := bmTest_markLoop true (((len + bs - 1) / bs) % 2 ^ 32) bm pos (8 * j + t)
        (by omega) (by omega)
      simp only [bmTest, hdiv, hmod] at h1 h2
      rw [h1, h2]
      by_cases hin : 8 * j + t < 2 ^ 32 ∧
          (pos ≤ 8 * j + t ∧ 8 * j + t < pos + ((len + bs - 1) / bs) % 2 ^ 32
            ∨ 8 * j + t + 2 ^ 32 < pos + ((len + bs - 1) / bs) % 2 ^ 32)
      · rw [if_pos hin]
        have hb1 : pos ≤ 8 * j + t := by omega
        have hb2 : 8 * j + t < pos + ((len + bs - 1) / bs) % 2 ^ 32 := by omega
        have := hfree (8 * j + t) hb1 hb2
        simp only [bmTest, hdiv, hmod] at this
        simp [this]
      · rw [if_neg hin, if_neg hin]
    · have hlt2 : markLoop (markLoop bm pos true (((len + bs - 1) / bs) % 2 ^ 32)) pos
          false (((len + bs - 1) / bs) % 2 ^ 32) j < 256 := by
        refine markLoop_lt false _ _ pos ?_ j
        intro j'
        exact markLoop_lt true _ bm pos hbytes j'
      rw [testBit_ge8_eq_false _ t hlt2 ht, testBit_ge8_eq_false _ t (hbytes j) ht]

theorem udf_crc_append (xs ys : List Nat) (init : Nat) :
    udf_crc (xs ++ ys) init = udf_crc ys (udf_crc xs init) := by
  simp [udf_crc, List.foldl_append]

/-- Claim C6: for an AVDP candidate that passes the tag checksum and
tag-identifier checks but fails the full-descriptor CRC: if the declared
descCRCLength equals the shortened coverage stopping at the reserved
region (32 - 16 bytes) and the CRC over that shortened coverage matches,
the candidate survives the CRC stage with E_CRC clear and (when the
position check passes) is accepted; otherwise E_CRC is set and the
candidate is rejected, so the caller tries the next sector size. -/
theorem get_avdp_short_crc_tolerance (sector : List Nat) (posSectors ssize : Nat)
    (hchk : checksum sector = true)
    (hident : readLE sector 0 2 = TAG_IDENT_AVDP)
    (hfull : crc sector 512 = true) :
    ((readLE sector 10 2 = 32 - 16 ∧ crc sector 32 = false) →
      check_position sector posSectors = false →
      ((get_avdp_candidate sector posSectors ssize).1 = true ∧
       Nat.land (get_avdp_candidate sector posSectors ssize).2 E_CRC = 0))
    ∧ (¬ (readLE sector 10 2 = 32 - 16 ∧ crc sector 32 = false) →
      get_avdp_candidate sector posSectors ssize = (false, E_CRC)) := by
  constructor
  · rintro ⟨hlen, hshort⟩ hpos
    simp only [get_avdp_candidate, hchk, hident, hfull, hlen, hshort, hpos]
    rw [if_neg (by simp), if_neg (by simp [TAG_IDENT_AVDP]),
      if_neg (by simp), if_neg (by simp)]
    constructor
    · rfl
    · split
      · decide
      · decide
  · intro hns
    have h1616 : (32 - 16 : Nat) = 16 := rfl
    rw [h1616] at hns
    simp only [get_avdp_candidate, hchk, hident, hfull]
    rw [if_neg (by simp), if_neg (by simp [TAG_IDENT_AVDP]), if_pos ?_]
    by_cases hc : crc sector 32 = true
    · simp [hfull, hc]
    · have hcf : crc sector 32 = false := by simpa using hc
      have hl : ¬ readLE sector 10 2 = 16 := fun he => hns ⟨he, hcf⟩
      simp [hfull, hcf, hl]

set_option maxRecDepth 4000 in
/-- Claim C6, witness applying the theorem at the concrete candidate
sector. -/
theorem get_avdp_short_crc_tolerance_witness :
    checksum avdpCandidateWitnessSector = true ∧
    readLE avdpCandidateWitnessSector 0 2 = TAG_IDENT_AVDP ∧
    crc avdpCandidateWitnessSector 512 = true ∧
    ((get_avdp_candidate avdpCandidateWitnessSector 256 512).1 = true ∧
     Nat.land (get_avdp_candidate avdpCandidateWitnessSector 256 512).2 E_CRC = 0) := by
  have hcalc : calculate_crc avdpCandidateWitnessSector 512 = 57175 := by
    have hslice : (avdpCandidateWitnessSector.drop 16).take 496
        = [0, 32, 0, 0, 32, 0, 0, 0, 0, 32, 0, 0, 64, 0, 0, 0] ++ List.replicate 480 0 := by
      decide
    unfold calculate_crc
    rw [if_pos (by norm_num), hslice]
    calc udf_crc ([0, 32, 0, 0, 32, 0, 0, 0, 0, 32, 0, 0, 64, 0, 0, 0] ++ List.replicate 480 0) 0
        = udf_crc (List.replicate 480 0) 62430 := by
          rw [udf_crc_append, show udf_crc [0, 32, 0, 0, 32, 0, 0, 0, 0, 32, 0, 0, 64, 0, 0, 0] 0 = 62430 from by decide]
      _ = udf_crc (List.replicate 464 0) 51381 := by
          rw [show (480 : Nat) = 16 + 464 from rfl, List.replicate_add, udf_crc_append,
            show udf_crc (List.replicate 16 (0 : Nat)) 62430 = 51381 from by decide]
      _ = udf_crc (List.replicate 448 0) 10014 := by
          rw [show (464 : Nat) = 16 + 448 from rfl, List.replicate_add, udf_crc_append,
            show udf_crc (List.replicate 16 (0 : Nat)) 51381 = 10014 from by decide]
      _ = udf_crc (List.replicate 432 0) 37167 := by
          rw [show (448 : Nat) = 16 + 432 from rfl, List.replicate_add, udf_crc_append,
            show udf_crc (List.replicate 16 (0 : Nat)) 10014 = 37167 from by decide]
      _ = udf_crc (List.replicate 416 0) 16793 := by
          rw [show (432 : Nat) = 16 + 416 from rfl, List.replicate_add, udf_crc_append,
            show udf_crc (List.replicate 16 (0 : Nat)) 37167 = 16793 from by decide]
      _ = udf_crc (List.replicate 400 0) 46893 := by
          rw [show (416 : Nat) = 16 + 400 from rfl, List.replicate_add, udf_crc_append,
            show udf_crc (List.replicate 16 (0 : Nat)) 16793 = 46893 from by decide]
      _ = udf_crc (List.replicate 384 0) 35567 := by
          rw [show (400 : Nat) = 16 + 384 from rfl, List.replicate_add, udf_crc_append,
            show udf_crc (List.replicate 16 (0 : Nat)) 46893 = 35567 from by decide]
      _ = udf_crc (List.replicate 368 0) 58688 := by
          rw [show (384 : Nat) = 16 + 368 from rfl, List.replicate_add, udf_crc_append,
            show udf_crc (List.replicate 16 (0 : Nat)) 35567 = 58688 from by decide]
      _ = udf_crc (List.replicate 352 0) 49330 := by
          rw [show (368 : Nat) = 16 + 352 from rfl, List.replicate_add, udf_crc_append,
            show udf_crc (List.replicate 16 (0 : Nat)) 58688 = 49330 from by decide]
      _ = udf_crc (List.replicate 336 0) 19980 := by
          rw [show (352 : Nat) = 16 + 336 from rfl, List.replicate_add, udf_crc_append,
            show udf_crc (List.replicate 16 (0 : Nat)) 49330 = 19980 from by decide]
      _ = udf_crc (List.replicate 320 0) 57825 := by
          rw [show (336 : Nat) = 16 + 320 from rfl, List.replicate_add, udf_crc_append,
            show udf_crc (List.replicate 16 (0 : Nat)) 19980 = 57825 from by decide]
      _ = udf_crc (List.replicate 304 0) 10138 := by
          rw [show (320 : Nat) = 16 + 304 from rfl, List.replicate_add, udf_crc_append,
            show udf_crc (List.replicate 16 (0 : Nat)) 57825 = 10138 from by decide]
      _ = udf_crc (List.replicate 288 0) 24207 := by
          rw [show (304 : Nat) = 16 + 288 from rfl, List.replicate_add, udf_crc_append,
            show udf_crc (List.replicate 16 (0 : Nat)) 10138 = 24207 from by decide]
      _ = udf_crc (List.replicate 272 0) 30172 := by
          rw [show (288 : Nat) = 16 + 272 from rfl, List.replicate_add, udf_crc_append,
            show udf_crc (List.replicate 16 (0 : Nat)) 24207 = 30172 from by decide]
      _ = udf_crc (List.replicate 256 0) 19878 := by
          rw [show (272 : Nat) = 16 + 256 from rfl, List.replicate_add, udf_crc_append,
            show udf_crc (List.replicate 16 (0 : Nat)) 30172 = 19878 from by decide]
      _ = udf_crc (List.replicate 240 0) 43574 := by
          rw [show (256 : Nat) = 16 + 240 from rfl, List.replicate_add, udf_crc_append,
            show udf_crc (List.replicate 16 (0 : Nat)) 19878 = 43574 from by decide]
      _ = udf_crc (List.replicate 224 0) 6780 := by
          rw [show (240 : Nat) = 16 + 224 from rfl, List.replicate_add, udf_crc_append,
            show udf_crc (List.replicate 16 (0 : Nat)) 43574 = 6780 from by decide]
      _ = udf_crc (List.replicate 208 0) 14214 := by
          rw [show (224 : Nat) = 16 + 208 from rfl, List.replicate_add, udf_crc_append,
            show udf_crc (List.replicate 16 (0 : Nat)) 6780 = 14214 from by decide]
      _ = udf_crc (List.replicate 192 0) 36856 := by
          rw [show (208 : Nat) = 16 + 192 from rfl, List.replicate_add, udf_crc_append,
            show udf_crc (List.replicate 16 (0 : Nat)) 14214 = 36856 from by decide]
      _ = udf_crc (List.replicate 176 0) 64427 := by
          rw [show (192 : Nat) = 16 + 176 from rfl, List.replicate_add, udf_crc_append,
            show udf_crc (List.replicate 16 (0 : Nat)) 36856 = 64427 from by decide]
      _ = udf_crc (List.replicate 160 0) 5609 := by
          rw [show (176 : Nat) = 16 + 160 from rfl, List.replicate_add, udf_crc_append,
            show udf_crc (List.replicate 16 (0 : Nat)) 64427 = 5609 from by decide]
      _ = udf_crc (List.replicate 144 0) 24906 := by
          rw [show (160 : Nat) = 16 + 144 from rfl, List.replicate_add, udf_crc_append,
            show udf_crc (List.replicate 16 (0 : Nat)) 5609 = 24906 from by decide]
      _ = udf_crc (List.replicate 128 0) 8845 := by
          rw [show (144 : Nat) = 16 + 128 from rfl, List.replicate_add, udf_crc_append,
            show udf_crc (List.replicate 16 (0 : Nat)) 24906 = 8845 from by decide]
      _ = udf_crc (List.replicate 112 0) 16484 := by
          rw [show (128 : Nat) = 16 + 112 from rfl, List.replicate_add, udf_crc_append,
            show udf_crc (List.replicate 16 (0 : Nat)) 8845 = 16484 from by decide]
      _ = udf_crc (List.replicate 96 0) 41095 := by
          rw [show (112 : Nat) = 16 + 96 from rfl, List.replicate_add, udf_crc_append,
            show udf_crc (List.replicate 16 (0 : Nat)) 16484 = 41095 from by decide]
      _ = udf_crc (List.replicate 80 0) 25312 := by
          rw [show (96 : Nat) = 16 + 80 from rfl, List.replicate_add, udf_crc_append,
            show udf_crc (List.replicate 16 (0 : Nat)) 41095 = 25312 from by decide]
      _ = udf_crc (List.replicate 64 0) 26970 := by
          rw [show (80 : Nat) = 16 + 64 from rfl, List.replicate_add, udf_crc_append,
            show udf_crc (List.replicate 16 (0 : Nat)) 25312 = 26970 from by decide]
      _ = udf_crc (List.replicate 48 0) 32130 := by
          rw [show (64 : Nat) = 16 + 48 from rfl, List.replicate_add, udf_crc_append,
            show udf_crc (List.replicate 16 (0 : Nat)) 26970 = 32130 from by decide]
      _ = udf_crc (List.replicate 32 0) 51598 := by
          rw [show (48 : Nat) = 16 + 32 from rfl, List.replicate_add, udf_crc_append,
            show udf_crc (List.replicate 16 (0 : Nat)) 32130 = 51598 from by decide]
      _ = udf_crc (List.replicate 16 0) 39108 := by
          rw [show (32 : Nat) = 16 + 16 from rfl, List.replicate_add, udf_crc_append,
            show udf_crc (List.replicate 16 (0 : Nat)) 51598 = 39108 from by decide]
      _ = 57175 := by decide
  have hfull : crc avdpCandidateWitnessSector 512 = true := by
    show (readLE avdpCandidateWitnessSector 8 2 != calculate_crc avdpCandidateWitnessSector 512)
      = true
    rw [hcalc]
    decide
  refine ⟨by decide, by decide, hfull, ?_⟩
  exact (get_avdp_short_crc_tolerance avdpCandidateWitnessSector 256 512
    (by decide) (by decide) hfull).1 ⟨by decide, by decide⟩ (by decide)

/-- Claim C9, witness applying the theorem at a concrete input. -/
theorem decrement_inverse_of_increment_witness :
    decrement_used_space (increment_used_space ⟨512, 16, 16, fun _ => 255⟩ 1024 3) 1024 3
      = (⟨512, 16, 16, fun _ => 255⟩ : SpaceStats) :=
  decrement_inverse_of_increment ⟨512, 16, 16, fun _ => 255⟩ 1024 3
    (by norm_num)
    (by norm_num)
    (fun _ => by norm_num)
    (by decide)
    (fun b _ _ => by
      show Nat.testBit 255 (b % 8) = true
      have hb8 : b % 8 < 8 := Nat.mod_lt _ (by norm_num)
      rw [show (255 : Nat) = 2 ^ 8 - 1 from rfl, Nat.testBit_two_pow_sub_one]
      simpa using hb8)

/-- Claim C7: while loading a VDS, a descriptor of a logical kind (PVD,
IUVD, PD, LVD, USD or TD) whose store slot is already occupied makes
get_vds stop immediately with the distinguished failure code -4, without
overwriting the previously stored descriptor (the slot table still records
the offending tag, as in the source, but the descriptor store is returned
unchanged). -/
theorem get_vds_duplicate_is_fatal (descs : Nat → VdsDesc) (k : Nat) (store : VdsStore)
    (seqTab : List (Nat × Nat)) (location ss fuel : Nat)
    (hkind : (descs k).tagIdent = TAG_IDENT_PVD ∨ (descs k).tagIdent = TAG_IDENT_IUVD ∨
      (descs k).tagIdent = TAG_IDENT_PD ∨ (descs k).tagIdent = TAG_IDENT_LVD ∨
      (descs k).tagIdent = TAG_IDENT_USD ∨ (descs k).tagIdent = TAG_IDENT_TD)
    (hdup : (store.slot (descs k).tagIdent).isSome = true) :
    get_vds_loop descs k store seqTab location ss (fuel + 1)
      = (-4, store, seqTab ++ [((descs k).tagIdent, location / ss)]) := by
  rcases hkind with h | h | h | h | h | h <;>
    simp_all [get_vds_loop, VdsStore.slot, TAG_IDENT_PVD, TAG_IDENT_IUVD, TAG_IDENT_PD,
      TAG_IDENT_LVD, TAG_IDENT_USD, TAG_IDENT_TD]

/-- Claim C7, witness applying the theorem at a concrete input: a stream
repeating the PVD descriptor against a store whose PVD slot is already
occupied. -/
theorem get_vds_duplicate_is_fatal_witness :
    get_vds_loop (fun _ => ⟨TAG_IDENT_PVD, 7, 0⟩) 0
        ⟨some 5, none, none, none, none, none⟩ [] 1024 512 3
      = (-4, ⟨some 5, none, none, none, none, none⟩, [(TAG_IDENT_PVD, 2)]) :=
  get_vds_duplicate_is_fatal (fun _ => ⟨TAG_IDENT_PVD, 7, 0⟩) 0
    ⟨some 5, none, none, none, none, none⟩ [] 1024 512 2 (Or.inl rfl) (by decide)

/-- Claim C1, code evaluation at the failing input: one VDS slot whose
Main copy is clean and whose Reserve copy is damaged (error E_CRC), with
repair enabled.  Faithful to the source (udffsck.c:3169), fix_vds copies
the DAMAGED Reserve sector over the clean Main position: the Reserve
position is left untouched and the Main position now holds the Reserve
sector content with the tag location patched to 10 and the tag checksum
recomputed — the opposite direction from the claim (and from the spec
policy in section 4.15). -/
theorem fix_vds_reserve_damaged_eval :
    (fix_vds c1Disk [⟨TAG_IDENT_PVD, 0⟩] [⟨TAG_IDENT_PVD, E_CRC⟩] 10 20 true 32).1 20
        = List.replicate 32 187 ∧
    (fix_vds c1Disk [⟨TAG_IDENT_PVD, 0⟩] [⟨TAG_IDENT_PVD, E_CRC⟩] 10 20 true 32).1 10
        ≠ List.replicate 32 170 ∧
    (fix_vds c1Disk [⟨TAG_IDENT_PVD, 0⟩] [⟨TAG_IDENT_PVD, E_CRC⟩] 10 20 true 32).1 10
        = [187, 187, 187, 187, 19, 187, 187, 187, 187, 187, 187, 187, 10, 0, 0, 0]
          ++ List.replicate 16 187 ∧
    (fix_vds c1Disk [⟨TAG_IDENT_PVD, 0⟩] [⟨TAG_IDENT_PVD, E_CRC⟩] 10 20 true 32).2
        = ESTATUS_CORRECTED_ERRORS := by
  refine ⟨by decide, by decide, by decide, by decide⟩

/-- Claim C10: inspect_fid leaves the state (in particular the position
pointer) unchanged and returns a nonzero failure code when the 16-byte tag
at the current position fails its checksum (252), when its tag identifier
is not the FID identifier (1), or when its CRC fails (251); the position
advances, by the FID total length flen plus padding, exactly on the
successful parse (return 0); and the caller-side FID iteration of
walk_directory stops at the first nonzero failure code. -/
theorem inspect_fid_gating_and_advance (env : FidEnv) (ch : Nat → Nat) (st : FidState)
    (lsn len fuel : Nat) :
    (checksum (st.base.drop st.pos) = false → inspect_fid env ch st lsn = (252, st))
    ∧ (checksum (st.base.drop st.pos) = true →
        readLE (st.base.drop st.pos) 0 2 ≠ TAG_IDENT_FID →
        inspect_fid env ch st lsn = (1, st))
    ∧ (checksum (st.base.drop st.pos) = true →
        readLE (st.base.drop st.pos) 0 2 = TAG_IDENT_FID →
        crc (st.base.drop st.pos)
          (fid_flen (st.base.drop st.pos) + fid_padding (st.base.drop st.pos)) = true →
        inspect_fid env ch st lsn = (251, st))
    ∧ ((inspect_fid env ch st lsn).1 = 0 →
        (inspect_fid env ch st lsn).2.pos
          = st.pos + fid_flen (st.base.drop st.pos) + fid_padding (st.base.drop st.pos))
    ∧ ((inspect_fid env ch st lsn).1 ≠ 0 → (inspect_fid env ch st lsn).2 = st)
    ∧ (st.pos < len → (inspect_fid env ch st lsn).1 ≠ 0 →
        fid_loop env ch lsn len (fuel + 1) st = (inspect_fid env ch st lsn).2) := by
  refine ⟨?_, ?_, ?_, ?_, ?_, ?_⟩
  · intro h
    simp [inspect_fid, h]
  · intro h hne
    simp [inspect_fid, h, hne]
  · intro h hid hcrc
    simp [inspect_fid, h, hid, hcrc]
  · intro h0
    by_cases h1 : checksum (st.base.drop st.pos) = false
    · simp [inspect_fid, h1] at h0
    · by_cases h2 : readLE (st.base.drop st.pos) 0 2 = TAG_IDENT_FID
      · by_cases h3 : crc (st.base.drop st.pos)
            (fid_flen (st.base.drop st.pos) + fid_padding (st.base.drop st.pos)) = true
        · simp [inspect_fid, h1, h2, h3] at h0
        · have h3f : crc (st.base.drop st.pos)
              (fid_flen (st.base.drop st.pos) + fid_padding (st.base.drop st.pos)) = false := by
            simpa using h3
          simp [inspect_fid, h1, h2, h3f]
      · simp [inspect_fid, h1, h2] at h0
  · intro hne
    by_cases h1 : checksum (st.base.drop st.pos) = false
    · simp [inspect_fid, h1]
    · by_cases h2 : readLE (st.base.drop st.pos) 0 2 = TAG_IDENT_FID
      · by_cases h3 : crc (st.base.drop st.pos)
            (fid_flen (st.base.drop st.pos) + fid_padding (st.base.drop st.pos)) = true
        · simp [inspect_fid, h1, h2, h3]
        · have h3f : crc (st.base.drop st.pos)
              (fid_flen (st.base.drop st.pos) + fid_padding (st.base.drop st.pos)) = false := by
            simpa using h3
          exact absurd (by simp [inspect_fid, h1, h2, h3f]) hne
      · simp [inspect_fid, h1, h2]
  · intro hlt hne
    simp only [fid_loop]
    rw [if_pos hlt, if_pos hne]

/-- Claim C10, witness applying the theorem at a concrete input: a buffer
whose bytes at the current position are all zero fails the tag checksum
only when the checksum byte itself would have to be nonzero; here the
16 zero bytes HAVE a valid checksum (0), but the identifier 0 is not the
FID identifier, so inspect_fid returns 1 and the state is unchanged. -/
theorem inspect_fid_gating_and_advance_witness :
    inspect_fid c2Env (fun _ => 0) ⟨List.replicate 16 0, 0, 0, 0, 0, 0, fun _ => []⟩ 9
      = (1, ⟨List.replicate 16 0, 0, 0, 0, 0, 0, fun _ => []⟩) := by
  have h := inspect_fid_gating_and_advance c2Env (fun _ => 0)
    ⟨List.replicate 16 0, 0, 0, 0, 0, 0, fun _ => []⟩ 9 0 0
  exact h.2.1 (by decide) (by decide)

set_option maxHeartbeats 2000000 in
/-- Claim C2 (the claim as a whole is a code bug; this theorem settles the
two halves that are decidable against src/): the consumer protocol of
inspect_fid (udffsck.c:2128..2158).  For a FID that passes the checksum,
identifier and CRC gates, whose tag serial matches, which is not deleted
and whose child ICB is followed: when the child status is 0 — which is
what get_file actually produces for an unfinished file, since it contains
no path returning the documented value 32 — the FID and the run status are
left untouched; when the child status is 32, inspect_fid sets the DELETED
bit (bit 2 of the file characteristics at FID offset 18), zeroes the
16-byte ICB at offsets 20..35, recomputes the FID descCRC and tag checksum
(both verify on the rewritten FID), and records a corrected-errors
status. -/
theorem inspect_fid_unfinished_consumer (env : FidEnv) (ch : Nat → Nat) (st : FidState)
    (lsn : Nat)
    (hchk : checksum (st.base.drop st.pos) = true)
    (hid : readLE (st.base.drop st.pos) 0 2 = TAG_IDENT_FID)
    (hcrc : crc (st.base.drop st.pos)
      (fid_flen (st.base.drop st.pos) + fid_padding (st.base.drop st.pos)) = false)
    (hser : env.avdpSerial = readLE (st.base.drop st.pos) 6 2)
    (hdel : Nat.land ((st.base.drop st.pos).getD 18 0) 4 = 0)
    (hp0 : st.pos ≠ 0)
    (hself : readLE (st.base.drop st.pos) 24 4 + env.lbnlsn ≠ lsn)
    (hroot : readLE (st.base.drop st.pos) 24 4 + env.lbnlsn ≠ env.rootLbn + env.lbnlsn)
    (huuid : ¬ (readLE (st.base.drop st.pos) 32 4 = 0 ∧ 0x0200 < env.minUDFReadRev))
    (hlen : st.pos + 40 ≤ st.base.length) :
    (ch (readLE (st.base.drop st.pos) 24 4 + env.lbnlsn) = 0 →
      (inspect_fid env ch st lsn).1 = 0 ∧
      (inspect_fid env ch st lsn).2.status = st.status ∧
      (inspect_fid env ch st lsn).2.base = st.base) ∧
    (ch (readLE (st.base.drop st.pos) 24 4 + env.lbnlsn) = 32 →
      (inspect_fid env ch st lsn).1 = 0 ∧
      (inspect_fid env ch st lsn).2.status = st.status ||| ESTATUS_CORRECTED_ERRORS ∧
      Nat.testBit ((inspect_fid env ch st lsn).2.base.getD (st.pos + 18) 0) 2 = true ∧
      (∀ i < 16, (inspect_fid env ch st lsn).2.base.getD (st.pos + 20 + i) 0 = 0) ∧
      checksum ((inspect_fid env ch st lsn).2.base.drop st.pos) = true ∧
      crc ((inspect_fid env ch st lsn).2.base.drop st.pos)
        (fid_flen ((inspect_fid env ch st lsn).2.base.drop st.pos)
          + fid_padding ((inspect_fid env ch st lsn).2.base.drop st.pos)) = false) := by
  have hstep : inspect_fid env ch st lsn
      = (0, { inspect_fid_body env ch st lsn with
              pos := st.pos + fid_flen (st.base.drop st.pos)
                       + fid_padding (st.base.drop st.pos) }) := by
    simp only [inspect_fid]
    rw [if_neg (by simp [hchk]), if_pos hid, if_neg (by simp [hcrc])]
  constructor
  · intro hch
    have hb : (inspect_fid_body env ch st lsn).status = st.status ∧
        (inspect_fid_body env ch st lsn).base = st.base := by
      simp only [inspect_fid_body]
      rw [if_neg (show ¬(env.avdpSerial ≠ readLE (st.base.drop st.pos) 6 2) from by
        simp [hser])]
      rw [if_pos hdel, if_neg hp0, if_neg hself, if_neg hroot, if_neg huuid, hch]
      rw [if_neg (show ¬((0 : Nat) = 32) from by decide)]
      by_cases hnu : st.nextUID ≤ readLE (st.base.drop st.pos) 32 4
      · rw [if_pos hnu]
        exact ⟨by simp, rfl⟩
      · rw [if_neg hnu]
        exact ⟨by simp, rfl⟩
    rw [hstep]
    exact ⟨rfl, hb.1, hb.2⟩
  · intro hch
    have hb : (inspect_fid_body env ch st lsn).status
          = st.status ||| ESTATUS_CORRECTED_ERRORS ∧
        (inspect_fid_body env ch st lsn).base
          = fid_write_crc_checksum
              (writeZeros (st.base.set (st.pos + 18)
                (Nat.lor ((st.base.drop st.pos).getD 18 0) 4)) (st.pos + 20) 16) st.pos := by
      simp only [inspect_fid_body]
      rw [if_neg (show ¬(env.avdpSerial ≠ readLE (st.base.drop st.pos) 6 2) from by
        simp [hser])]
      rw [if_pos hdel, if_neg hp0, if_neg hself, if_neg hroot, if_neg huuid, hch]
      rw [if_pos (show (32 : Nat) = 32 from rfl)]
      by_cases hnu : st.nextUID ≤ readLE (st.base.drop st.pos) 32 4
      · rw [if_pos hnu]
        exact ⟨rfl, rfl⟩
      · rw [if_neg hnu]
        exact ⟨rfl, rfl⟩
    rw [hstep]
    refine ⟨rfl, hb.1, ?_⟩
    have hbase := hb.2
    -- Abbreviations for the three write stages performed by the removal.
    set m := st.base with hm
    set p := st.pos with hp
    set B0 := m.set (p + 18) (Nat.lor ((m.drop p).getD 18 0) 4) with hB0
    set B1 := writeZeros B0 (p + 20) 16 with hB1
    set C := calculate_crc (B1.drop p) (fid_flen (B1.drop p) + fid_padding (B1.drop p))
      with hC
    have hB2eq : writeLE B1 (p + 8) C 2 = (B1.set (p + 8) (C % 256)).set (p + 9) (C / 256 % 256) := by
      rw [writeLE_two]
    set B2 := (B1.set (p + 8) (C % 256)).set (p + 9) (C / 256 % 256) with hB2
    have hbase3 : (inspect_fid_body env ch st lsn).base = B2.set (p + 4) (calculate_checksum (B2.drop p)) := by
      rw [hbase]
      simp only [fid_write_crc_checksum]
      rw [← hC, hB2eq]
    set B3 := B2.set (p + 4) (calculate_checksum (B2.drop p)) with hB3
    -- Lengths are preserved by every stage.
    have hL0 : B0.length = m.length := List.length_set ..
    have hL1 : B1.length = m.length := by rw [hB1, length_writeZeros, hL0]
    have hL2 : B2.length = m.length := by rw [hB2, List.length_set, List.length_set, hL1]
    have hL3 : B3.length = m.length := by rw [hB3, List.length_set, hL2]
    -- getD of B3 outside the four write regions equals getD of m;
    -- intermediate characterizations first.
    have hgd3 : ∀ j, j ≠ p + 4 → B3.getD j 0 = B2.getD j 0 := by
      intro j hj
      rw [hB3, getD_set, if_neg (by omega)]
    have hgd2 : ∀ j, j ≠ p + 8 → j ≠ p + 9 → B2.getD j 0 = B1.getD j 0 := by
      intro j hj8 hj9
      rw [hB2, getD_set, if_neg (by omega), getD_set, if_neg (by omega)]
    have hgd1 : ∀ j, (j < p + 20 ∨ p + 36 ≤ j) → B1.getD j 0 = B0.getD j 0 := by
      intro j hj
      rw [hB1, getD_writeZeros, if_neg (by omega)]
    have hgd0 : ∀ j, j ≠ p + 18 → B0.getD j 0 = m.getD j 0 := by
      intro j hj
      rw [hB0, getD_set, if_neg (by omega)]
    refine ⟨?_, ?_, ?_, ?_⟩
    · -- DELETED bit set at offset 18
      rw [hbase3]
      rw [hgd3 _ (by omega), hgd2 _ (by omega) (by omega), hgd1 _ (by omega)]
      rw [hB0, getD_set, if_pos ⟨rfl, by omega⟩]
      show ((m.drop p).getD 18 0 ||| 4).testBit 2 = true
      rw [Nat.testBit_or]
      have h42 : Nat.testBit 4 2 = true := by decide
      rw [h42, Bool.or_true]
    · -- the 16 ICB bytes at offsets 20..35 are zero
      intro i hi
      rw [hbase3]
      rw [hgd3 _ (by omega), hgd2 _ (by omega) (by omega)]
      rw [hB1, getD_writeZeros, if_pos (by constructor; omega; constructor; omega; rw [hL0]; omega)]
    · -- the rewritten tag checksum verifies
      rw [hbase3]
      show (calculate_checksum (B3.drop p) == (B3.drop p).getD 4 0) = true
      have h4 : (B3.drop p).getD 4 0 = calculate_checksum (B2.drop p) := by
        rw [getD_drop, hB3, getD_set, if_pos ⟨rfl, by rw [hL2]; omega⟩]
      have hcs : calculate_checksum (B3.drop p) = calculate_checksum (B2.drop p) := by
        apply calculate_checksum_congr
        intro i hi16 hi4
        rw [getD_drop, getD_drop]
        exact hgd3 _ (by omega)
      rw [h4, hcs]
      simp
    · -- the rewritten descCRC verifies
      rw [hbase3]
      have hflen : fid_flen (B3.drop p) = fid_flen (B1.drop p) := by
        unfold fid_flen
        rw [readLE_two, readLE_two, getD_drop, getD_drop, getD_drop, getD_drop,
          getD_drop, getD_drop]
        rw [hgd3 _ (by omega), hgd2 _ (by omega) (by omega),
          hgd3 _ (by omega), hgd2 _ (by omega) (by omega),
          hgd3 _ (by omega), hgd2 _ (by omega) (by omega)]
      have hpad : fid_padding (B3.drop p) = fid_padding (B1.drop p) := by
        unfold fid_padding
        rw [readLE_two, readLE_two, getD_drop, getD_drop, getD_drop, getD_drop,
          getD_drop, getD_drop]
        rw [hgd3 _ (by omega), hgd2 _ (by omega) (by omega),
          hgd3 _ (by omega), hgd2 _ (by omega) (by omega),
          hgd3 _ (by omega), hgd2 _ (by omega) (by omega)]
      have hcrc3 : calculate_crc (B3.drop p) (fid_flen (B1.drop p) + fid_padding (B1.drop p))
          = C := by
        rw [hC]
        apply calculate_crc_congr
        · rw [List.length_drop, List.length_drop, hL3, hL1]
        · intro i hi16 hiS
          rw [getD_drop, getD_drop]
          rw [hgd3 _ (by omega), hgd2 _ (by omega) (by omega)]
      have hread : readLE (B3.drop p) 8 2 = C := by
        rw [readLE_two, getD_drop, getD_drop]
        rw [hgd3 _ (by omega), hgd3 _ (by omega)]
        rw [hB2, getD_set, if_neg (by omega), getD_set,
          if_pos ⟨rfl, by rw [hL1]; omega⟩]
        rw [getD_set, if_pos ⟨rfl, by rw [List.length_set, hL1]; omega⟩]
        have hClt : C < 65536 := by rw [hC]; exact calculate_crc_lt _ _
        omega
      show (readLE (B3.drop p) 8 2 != calculate_crc (B3.drop p)
        (fid_flen (B3.drop p) + fid_padding (B3.drop p))) = false
      rw [hflen, hpad, hcrc3, hread]
      simp


set_option maxRecDepth 4000 in
/-- Witness for the consumer theorem at the concrete run inputs: a valid
FID at position 40 of c2Base, child ICB at block 5, inspected with lsn
100. -/
theorem inspect_fid_unfinished_consumer_witness :
    (inspect_fid c2Env (fun _ => 0) c2State 100).1 = 0 ∧
    (inspect_fid c2Env (fun _ => 0) c2State 100).2.base = c2State.base ∧
    (inspect_fid c2Env (fun _ => 32) c2State 100).1 = 0 ∧
    Nat.testBit ((inspect_fid c2Env (fun _ => 32) c2State 100).2.base.getD
      (c2State.pos + 18) 0) 2 = true ∧
    checksum ((inspect_fid c2Env (fun _ => 32) c2State 100).2.base.drop c2State.pos) = true ∧
    crc ((inspect_fid c2Env (fun _ => 32) c2State 100).2.base.drop c2State.pos)
      (fid_flen ((inspect_fid c2Env (fun _ => 32) c2State 100).2.base.drop c2State.pos)
        + fid_padding ((inspect_fid c2Env (fun _ => 32) c2State 100).2.base.drop
            c2State.pos)) = false := by
  have hl : ((c2Base.drop 40).drop 16).take (40 - 16)
      = [1, 0, 0, 0, 0, 8, 0, 0, 5, 0, 0, 0] ++ [0, 0, 0, 0, 9, 0, 0, 0, 0, 0, 0, 0] := by
    decide
  have hstep1 : udf_crc [1, 0, 0, 0, 0, 8, 0, 0, 5, 0, 0, 0] 0 = 11421 := by decide
  have hstep2 : udf_crc [0, 0, 0, 0, 9, 0, 0, 0, 0, 0, 0, 0] 11421 = 54978 := by decide
  have hcc : calculate_crc (c2Base.drop 40) 40 = 54978 := by
    show (if 16 ≤ 40 then udf_crc (((c2Base.drop 40).drop 16).take (40 - 16)) 0 else 0)
      = 54978
    rw [if_pos (by decide), hl, udf_crc_append, hstep1, hstep2]
  have hS : fid_flen (c2Base.drop 40) + fid_padding (c2Base.drop 40) = 40 := by decide
  have hcrc0 : crc (c2State.base.drop c2State.pos)
      (fid_flen (c2State.base.drop c2State.pos)
        + fid_padding (c2State.base.drop c2State.pos)) = false := by
    show crc (c2Base.drop 40) (fid_flen (c2Base.drop 40) + fid_padding (c2Base.drop 40))
      = false
    rw [hS]
    show (readLE (c2Base.drop 40) 8 2 != calculate_crc (c2Base.drop 40) 40) = false
    rw [hcc, show readLE (c2Base.drop 40) 8 2 = 54978 from by decide]
    decide
  have h0 := inspect_fid_unfinished_consumer c2Env (fun _ => 0) c2State 100
    (by decide) (by decide) hcrc0 (by decide) (by decide) (by decide) (by decide)
    (by decide) (by decide) (by decide)
  have h32 := inspect_fid_unfinished_consumer c2Env (fun _ => 32) c2State 100
    (by decide) (by decide) hcrc0 (by decide) (by decide) (by decide) (by decide)
    (by decide) (by decide) (by decide)
  have ha := h0.1 rfl
  have hb := h32.2 rfl
  exact ⟨ha.1, ha.2.2, hb.1, hb.2.2.1, hb.2.2.2.2.1, hb.2.2.2.2.2⟩

end Udffsck
